import Mathlib

/-!
Verification of the bisection session engine of the rocket-launch bot
(rocket_launch_bot/bot/session_manager.py).

The embedding below mirrors the Python source:
Python integers become Int, Python floor division (the // operator, and
int(x / y) on the nonnegative quantities that appear here) becomes
Int.fdiv, the optional found_frame becomes Option Int, and each mutating
method becomes a function from the session state to the updated state
(paired with its return value where the method returns one).
int(math.log2 n) for a positive integer n is modelled as the exact
floor of the base-2 logarithm (pylog2 below); this is what the float
computation returns for all magnitudes this program handles.
-/

/-- Floor of log2 with an explicit fuel argument, so that it is
structurally recursive and kernel-reducible. -/
def log2fuel : Nat → Nat → Nat
  | 0, _ => 0
  | f + 1, n => if n < 2 then 0 else log2fuel f (n / 2) + 1

/-- Floor of the base-2 logarithm of n (0 for n = 0), modelling the
Python expression int(math.log2 n). -/
def pylog2 (n : Nat) : Nat := log2fuel n n

/-- Ceiling of the base-2 logarithm of n, used to state the spec-side
formulas that say ceil(log2(...)). -/
def ceilLog2 (n : Nat) : Nat := if n ≤ 1 then 0 else pylog2 (n - 1) + 1

/-- The per-user bisection session state (class UserSession). -/
structure UserSession where
  user_id : Int
  total_frames : Int
  left_bound : Int
  right_bound : Int
  steps_taken : Int
  found_frame : Option Int
  is_finished : Bool
  current_frame : Int
deriving Repr, DecidableEq

/-- UserSession._calculate_next_frame: when the bounds have not crossed,
set current_frame to the floor midpoint, count the step and report true;
otherwise leave the state alone and report false. -/
def UserSession.calculate_next_frame (s : UserSession) : UserSession × Bool :=
  if s.left_bound ≤ s.right_bound then
    ({ s with current_frame := Int.fdiv (s.left_bound + s.right_bound) 2,
              steps_taken := s.steps_taken + 1 }, true)
  else
    (s, false)

/-- UserSession.__init__: no validation of total_frames is performed; the
constructor immediately tries to compute the first probe. -/
def UserSession.init (user_id total_frames : Int) : UserSession :=
  (UserSession.calculate_next_frame
    { user_id := user_id
      total_frames := total_frames
      left_bound := 0
      right_bound := total_frames - 1
      steps_taken := 0
      found_frame := none
      is_finished := false
      current_frame := 0 }).1

/-- UserSession.update_bounds. -/
def UserSession.update_bounds (s : UserSession) (has_launched : Bool) : UserSession :=
  if has_launched then
    { s with right_bound := s.current_frame - 1 }
  else
    { s with left_bound := s.current_frame + 1 }

/-- UserSession.next_step: detect convergence (bounds crossed), otherwise
advance to the next probe. Returns true when the session is finished. -/
def UserSession.next_step (s : UserSession) : UserSession × Bool :=
  if s.left_bound > s.right_bound then
    ({ s with is_finished := true,
              found_frame := some (if s.left_bound < s.total_frames then s.left_bound
                                   else s.total_frames - 1) }, true)
  else
    let p := s.calculate_next_frame
    if p.2 = false then
      ({ p.1 with is_finished := true, found_frame := some p.1.current_frame }, true)
    else
      (p.1, false)

/-- One answer round as driven by the handler: update_bounds with the
user's answer, then next_step (the submitAnswer operation of the spec). -/
def submitAnswer (s : UserSession) (has_launched : Bool) : UserSession × Bool :=
  (s.update_bounds has_launched).next_step

/-- UserSession.is_complete, returned together with the (unmodified)
session state to record that the method writes no field. -/
def UserSession.is_complete (s : UserSession) : Bool × UserSession :=
  (s.is_finished, s)

/-- UserSession.calculate_remaining_steps, returned together with the
(unmodified) session state. max 0 mirrors the Python max(0, ...). -/
def UserSession.calculate_remaining_steps (s : UserSession) : Int × UserSession :=
  let remaining_range := s.right_bound - s.left_bound
  if remaining_range ≤ 0 then (0, s)
  else (max 0 ((pylog2 (remaining_range + 1).toNat : Nat) : Int), s)

/-- The dictionary returned by UserSession.get_progress_info. -/
structure ProgressInfo where
  current_frame : Int
  total_frames : Int
  steps_taken : Int
  remaining_steps : Int
  progress_percentage : Int
deriving Repr, DecidableEq

/-- UserSession.get_progress_info. int((steps / total) * 100) is modelled
as the floor of the exact ratio times 100. -/
def UserSession.get_progress_info (s : UserSession) : ProgressInfo × UserSession :=
  let p := s.calculate_remaining_steps
  let remaining_steps := p.1
  let s1 := p.2
  let total_estimated_steps := s1.steps_taken + remaining_steps
  let progress_percentage : Int :=
    if total_estimated_steps > 0 then
      min 100 (Int.fdiv (s1.steps_taken * 100) total_estimated_steps)
    else 100
  ({ current_frame := s1.current_frame
     total_frames := s1.total_frames
     steps_taken := s1.steps_taken
     remaining_steps := remaining_steps
     progress_percentage := progress_percentage }, s1)

/-- The progress percentage a session currently reports. -/
def progressPercent (s : UserSession) : Int :=
  (s.get_progress_info).1.progress_percentage

/-- The session registry (class SessionManager); the Python dict becomes
a function from user id to an optional session. -/
structure SessionManager where
  sessions : Int → Option UserSession

/-- SessionManager.create_session: builds the session, stores it under
the user id (overwriting any previous one) and returns it. -/
def SessionManager.create_session (m : SessionManager) (user_id total_frames : Int) :
    UserSession × SessionManager :=
  let session := UserSession.init user_id total_frames
  (session, ⟨fun u => if u = user_id then some session else m.sessions u⟩)

/-- SessionManager.get_session. -/
def SessionManager.get_session (m : SessionManager) (user_id : Int) : Option UserSession :=
  m.sessions user_id

/-- SessionManager.end_session: delete the entry if present, otherwise do
nothing. -/
def SessionManager.end_session (m : SessionManager) (user_id : Int) : SessionManager :=
  if (m.sessions user_id).isSome then ⟨fun u => if u = user_id then none else m.sessions u⟩
  else m

/-- A session manager with no sessions (the state right after
SessionManager.__init__). -/
def emptyManager : SessionManager := ⟨fun _ => none⟩

/-- Drive a session with an answer function: repeatedly submit the answer
for the current probe, stopping as soon as the session reports finished
(or when the fuel runs out). -/
def runSession (ans : Int → Bool) : Nat → UserSession → UserSession
  | 0, s => s
  | fuel + 1, s =>
    if s.is_finished then s
    else runSession ans fuel (submitAnswer s (ans s.current_frame)).1

/-- The session states produced by the engine itself: a constructor call
with a positive frame count, followed by any number of submitAnswer
rounds. -/
inductive Reachable : UserSession → Prop where
  | init (uid total : Int) (h : 1 ≤ total) : Reachable (UserSession.init uid total)
  | step (s : UserSession) (b : Bool) (h : Reachable s) : Reachable (submitAnswer s b).1

/-- The state invariant maintained by construction and submitAnswer. -/
def SessionInv (s : UserSession) : Prop :=
  1 ≤ s.total_frames ∧ 1 ≤ s.steps_taken ∧ 0 ≤ s.left_bound ∧
  s.right_bound ≤ s.total_frames - 1 ∧ s.current_frame ≤ s.total_frames - 1 ∧
  (s.is_finished = false →
    s.current_frame = Int.fdiv (s.left_bound + s.right_bound) 2 ∧
    s.left_bound ≤ s.right_bound) ∧
  (s.is_finished = true →
    s.right_bound < s.left_bound ∧
    s.right_bound ≤ s.current_frame ∧ s.current_frame ≤ s.left_bound ∧
    0 ≤ s.current_frame ∧ (s.found_frame).isSome = true)

/-- The remaining-steps formula as the spec words it (ceiling log), for
comparison with the code's calculate_remaining_steps. -/
def spec_remaining_steps (s : UserSession) : Int :=
  if s.right_bound > s.left_bound then
    max 0 ((ceilLog2 (s.right_bound - s.left_bound + 1).toNat : Nat) : Int)
  else 0

theorem log2fuel_eq_log (f : Nat) : ∀ n : Nat, n ≤ f → log2fuel f n = Nat.log 2 n := by
  induction f with
  | zero =>
    intro n hn
    have : n = 0 := Nat.le_zero.mp hn
    subst this
    simp [log2fuel, Nat.log_zero_right]
  | succ f ih =>
    intro n hn
    by_cases h : n < 2
    · simp [log2fuel, h, Nat.log_of_lt h]
    · push_neg at h
      have h2 : n / 2 ≤ f := by
        have := Nat.div_lt_self (by omega : 0 < n) (by norm_num : 1 < 2)
        omega
      simp only [log2fuel, if_neg (by omega : ¬ n < 2)]
      rw [ih (n / 2) h2, Nat.log_of_one_lt_of_le (by norm_num) h]

/-- pylog2 agrees with Mathlib's floor logarithm. -/
theorem pylog2_eq_log (n : Nat) : pylog2 n = Nat.log 2 n :=
  log2fuel_eq_log n n le_rfl

/-- ceilLog2 agrees with Mathlib's ceiling logarithm. -/
theorem ceilLog2_eq_clog (n : Nat) : ceilLog2 n = Nat.clog 2 n := by
  unfold ceilLog2
  by_cases h : n ≤ 1
  · rw [if_pos h, Nat.clog_of_right_le_one h]
  · push_neg at h
    rw [if_neg (by omega)]
    rw [pylog2_eq_log]
    have hn1 : n - 1 ≠ 0 := by omega
    apply le_antisymm
    · by_contra hc
      push_neg at hc
      have : Nat.clog 2 n ≤ Nat.log 2 (n - 1) := by omega
      have hle : n ≤ 2 ^ Nat.log 2 (n - 1) :=
        (Nat.le_pow_iff_clog_le (by norm_num)).mpr this
      have := Nat.pow_log_le_self 2 hn1
      omega
    · apply (Nat.le_pow_iff_clog_le (by norm_num)).mp
      have := Nat.lt_pow_succ_log_self (by norm_num : 1 < 2) (n - 1)
      omega

theorem pylog2_le_ceilLog2 (n : Nat) : pylog2 n ≤ ceilLog2 n := by
  rw [pylog2_eq_log, ceilLog2_eq_clog]
  exact Nat.log_le_clog 2 n

theorem pylog2_mono {m n : Nat} (h : m ≤ n) : pylog2 m ≤ pylog2 n := by
  rw [pylog2_eq_log, pylog2_eq_log]
  exact Nat.log_mono_right h

theorem pylog2_two_le (n : Nat) (h : 2 ≤ n) : pylog2 n = pylog2 (n / 2) + 1 := by
  rw [pylog2_eq_log, pylog2_eq_log]
  exact Nat.log_of_one_lt_of_le (by norm_num) h

/-- Closed form of one submitAnswer round: narrow one bound, then either
finish (bounds crossed) or move to the midpoint of the narrowed range. -/
theorem submitAnswer_char (s : UserSession) (b : Bool) :
    submitAnswer s b =
      (let l' := if b then s.left_bound else s.current_frame + 1
       let r' := if b then s.current_frame - 1 else s.right_bound
       if r' < l' then
         ({ s with left_bound := l', right_bound := r', is_finished := true,
                   found_frame := some (if l' < s.total_frames then l'
                                        else s.total_frames - 1) }, true)
       else
         ({ s with left_bound := l', right_bound := r',
                   current_frame := Int.fdiv (l' + r') 2,
                   steps_taken := s.steps_taken + 1 }, false)) := by
  cases b <;>
    simp only [submitAnswer, UserSession.update_bounds, UserSession.next_step,
      UserSession.calculate_next_frame, if_true, if_false, Bool.false_eq_true,
      ite_true, ite_false] <;>
    split_ifs <;> simp_all

/-- A session constructed with a positive frame count satisfies the
invariant. -/
theorem sessionInv_init (uid total : Int) (h : 1 ≤ total) :
    SessionInv (UserSession.init uid total) := by
  have heq : UserSession.init uid total =
      { user_id := uid, total_frames := total, left_bound := 0, right_bound := total - 1,
        steps_taken := 1, found_frame := none, is_finished := false,
        current_frame := Int.fdiv (0 + (total - 1)) 2 } := by
    unfold UserSession.init UserSession.calculate_next_frame
    rw [if_pos (by omega : (0:Int) ≤ total - 1)]
    rfl
  rw [heq]
  refine ⟨h, le_rfl, le_rfl, le_rfl, ?_, ?_, ?_⟩
  · show Int.fdiv (0 + (total - 1)) 2 ≤ total - 1
    rw [Int.fdiv_eq_ediv _ (by norm_num : (0:Int) ≤ 2)]
    omega
  · intro
    exact ⟨rfl, show (0:Int) ≤ total - 1 by omega⟩
  · intro hq
    exact Bool.noConfusion hq

/-- submitAnswer preserves the invariant (also when called on an already
finished session). -/
theorem sessionInv_submit (s : UserSession) (b : Bool) (h : SessionInv s) :
    SessionInv (submitAnswer s b).1 := by
  obtain ⟨h1, h2, h3, h4, h5, hact, hfin⟩ := h
  rw [submitAnswer_char]
  have hfd := Int.fdiv_eq_ediv (s.left_bound + s.right_bound) (by norm_num : (0:Int) ≤ 2)
  cases hb : s.is_finished with
  | false =>
    obtain ⟨hcur, hlr⟩ := hact hb
    rw [hfd] at hcur
    have hcl : s.left_bound ≤ s.current_frame := by omega
    have hcr : s.current_frame ≤ s.right_bound := by omega
    cases b
    · -- answer false: left bound moves to current_frame + 1
      simp only [Bool.false_eq_true, ite_false]
      by_cases hc : s.right_bound < s.current_frame + 1
      · rw [if_pos hc]
        refine ⟨h1, h2, show (0:Int) ≤ s.current_frame + 1 by omega, h4, h5, ?_, ?_⟩
        · intro hq
          exact Bool.noConfusion hq
        · intro
          refine ⟨show s.right_bound < s.current_frame + 1 from hc, ?_, ?_, ?_, rfl⟩
          · show s.right_bound ≤ s.current_frame
            omega
          · show s.current_frame ≤ s.current_frame + 1
            omega
          · show (0:Int) ≤ s.current_frame
            omega
      · rw [if_neg hc]
        refine ⟨h1, show 1 ≤ s.steps_taken + 1 by omega,
          show (0:Int) ≤ s.current_frame + 1 by omega, h4, ?_, ?_, ?_⟩
        · show Int.fdiv (s.current_frame + 1 + s.right_bound) 2 ≤ s.total_frames - 1
          rw [Int.fdiv_eq_ediv _ (by norm_num : (0:Int) ≤ 2)]
          omega
        · intro
          exact ⟨rfl, show s.current_frame + 1 ≤ s.right_bound by omega⟩
        · intro hq
          exact Bool.noConfusion hq
    · -- answer true: right bound moves to current_frame - 1
      simp only [ite_true]
      by_cases hc : s.current_frame - 1 < s.left_bound
      · rw [if_pos hc]
        refine ⟨h1, h2, h3, show s.current_frame - 1 ≤ s.total_frames - 1 by omega, h5, ?_, ?_⟩
        · intro hq
          exact Bool.noConfusion hq
        · intro
          refine ⟨show s.current_frame - 1 < s.left_bound from hc, ?_, ?_, ?_, rfl⟩
          · show s.current_frame - 1 ≤ s.current_frame
            omega
          · show s.current_frame ≤ s.left_bound
            omega
          · show (0:Int) ≤ s.current_frame
            omega
      · rw [if_neg hc]
        refine ⟨h1, show 1 ≤ s.steps_taken + 1 by omega, h3,
          show s.current_frame - 1 ≤ s.total_frames - 1 by omega, ?_, ?_, ?_⟩
        · show Int.fdiv (s.left_bound + (s.current_frame - 1)) 2 ≤ s.total_frames - 1
          rw [Int.fdiv_eq_ediv _ (by norm_num : (0:Int) ≤ 2)]
          omega
        · intro
          exact ⟨rfl, show s.left_bound ≤ s.current_frame - 1 by omega⟩
        · intro hq
          exact Bool.noConfusion hq
  | true =>
    obtain ⟨hrl, hrc, hcl, hc0, hfound⟩ := hfin hb
    cases b
    · simp only [Bool.false_eq_true, ite_false]
      rw [if_pos (show s.right_bound < s.current_frame + 1 by omega)]
      refine ⟨h1, h2, show (0:Int) ≤ s.current_frame + 1 by omega, h4, h5, ?_, ?_⟩
      · intro hq
        exact Bool.noConfusion hq
      · intro
        refine ⟨show s.right_bound < s.current_frame + 1 by omega, ?_, ?_, ?_, rfl⟩
        · show s.right_bound ≤ s.current_frame
          omega
        · show s.current_frame ≤ s.current_frame + 1
          omega
        · show (0:Int) ≤ s.current_frame
          omega
    · simp only [ite_true]
      rw [if_pos (show s.current_frame - 1 < s.left_bound by omega)]
      refine ⟨h1, h2, h3, show s.current_frame - 1 ≤ s.total_frames - 1 by omega, h5, ?_, ?_⟩
      · intro hq
        exact Bool.noConfusion hq
      · intro
        refine ⟨show s.current_frame - 1 < s.left_bound by omega, ?_, ?_, ?_, rfl⟩
        · show s.current_frame - 1 ≤ s.current_frame
          omega
        · show s.current_frame ≤ s.left_bound
          omega
        · show (0:Int) ≤ s.current_frame
          omega

/-- Every reachable session state satisfies the invariant. -/
theorem reachable_inv (s : UserSession) (h : Reachable s) : SessionInv s := by
  induction h with
  | init uid total ht => exact sessionInv_init uid total ht
  | step t b _ ih => exact sessionInv_submit t b ih

/-- Once a session is finished, the driver submits nothing further. -/
theorem runSession_finished (ans : Int → Bool) (fuel : Nat) (s : UserSession)
    (h : s.is_finished = true) : runSession ans fuel s = s := by
  cases fuel with
  | zero => rfl
  | succ f => rw [runSession, if_pos h]

/-- Main convergence lemma: from any active state whose probe is the
midpoint of the bounds, an oracle that answers no strictly below the
threshold k and yes from k on (on all in-range indices) drives the
session to a finished state with found_frame equal to k clamped to the
last frame, using at most floor(log2 of the range size) + 1 answers. -/
theorem runSession_converges (ans : Int → Bool) (k : Int) :
    ∀ fuel : Nat, ∀ s : UserSession,
      s.is_finished = false →
      s.current_frame = Int.fdiv (s.left_bound + s.right_bound) 2 →
      0 ≤ s.left_bound →
      s.left_bound ≤ s.right_bound →
      s.right_bound ≤ s.total_frames - 1 →
      s.left_bound ≤ k → k ≤ s.right_bound + 1 →
      (∀ i : Int, 0 ≤ i → i ≤ s.total_frames - 1 → ans i = decide (k ≤ i)) →
      pylog2 (s.right_bound - s.left_bound + 1).toNat + 1 ≤ fuel →
      (runSession ans fuel s).is_finished = true ∧
      (runSession ans fuel s).found_frame =
        some (if k < s.total_frames then k else s.total_frames - 1) := by
  intro fuel
  induction fuel with
  | zero =>
    intro s _ _ _ _ _ _ _ _ hfuel
    exact absurd hfuel (by omega)
  | succ f ih =>
    intro s hfin hcur h0 hlr hrt hlk hkr hans hfuel
    rw [runSession, if_neg (by simp [hfin])]
    rw [Int.fdiv_eq_ediv _ (by norm_num : (0:Int) ≤ 2)] at hcur
    have hc0 : 0 ≤ s.current_frame := by omega
    have hcl : s.left_bound ≤ s.current_frame := by omega
    have hcr : s.current_frame ≤ s.right_bound := by omega
    have hct : s.current_frame ≤ s.total_frames - 1 := by omega
    rw [hans s.current_frame hc0 hct]
    by_cases hk : k ≤ s.current_frame
    · rw [decide_eq_true hk, submitAnswer_char]
      simp only [ite_true]
      by_cases hcross : s.current_frame - 1 < s.left_bound
      · have hkl : k = s.left_bound := by omega
        rw [if_pos hcross, runSession_finished _ _ _ rfl]
        refine ⟨rfl, ?_⟩
        rw [hkl]
      · rw [if_neg hcross]
        have hn2 : 2 ≤ (s.right_bound - s.left_bound + 1).toNat := by omega
        have hsz : ((s.current_frame - 1) - s.left_bound + 1).toNat ≤
            (s.right_bound - s.left_bound + 1).toNat / 2 := by omega
        have hfuel' : pylog2 ((s.current_frame - 1) - s.left_bound + 1).toNat + 1 ≤ f := by
          have hm := pylog2_mono hsz
          have he := pylog2_two_le (s.right_bound - s.left_bound + 1).toNat hn2
          omega
        exact ih _ hfin rfl h0 (show s.left_bound ≤ s.current_frame - 1 by omega)
          (show s.current_frame - 1 ≤ s.total_frames - 1 by omega) hlk
          (show k ≤ (s.current_frame - 1) + 1 by omega) hans hfuel'
    · push_neg at hk
      rw [decide_eq_false (by omega : ¬ k ≤ s.current_frame), submitAnswer_char]
      simp only [Bool.false_eq_true, ite_false]
      by_cases hcross : s.right_bound < s.current_frame + 1
      · have hkl : k = s.current_frame + 1 := by omega
        rw [if_pos hcross, runSession_finished _ _ _ rfl]
        refine ⟨rfl, ?_⟩
        rw [hkl]
      · rw [if_neg hcross]
        have hn2 : 2 ≤ (s.right_bound - s.left_bound + 1).toNat := by omega
        have hsz : (s.right_bound - (s.current_frame + 1) + 1).toNat ≤
            (s.right_bound - s.left_bound + 1).toNat / 2 := by omega
        have hfuel' : pylog2 (s.right_bound - (s.current_frame + 1) + 1).toNat + 1 ≤ f := by
          have hm := pylog2_mono hsz
          have he := pylog2_two_le (s.right_bound - s.left_bound + 1).toNat hn2
          omega
        exact ih _ hfin rfl (show (0:Int) ≤ s.current_frame + 1 by omega)
          (show s.current_frame + 1 ≤ s.right_bound by omega) hrt
          (show s.current_frame + 1 ≤ k by omega) hkr hans hfuel'

/-- Field-level description of a constructor call with at least one
frame. -/
theorem init_eq (uid total : Int) (h : 1 ≤ total) :
    UserSession.init uid total =
      { user_id := uid, total_frames := total, left_bound := 0, right_bound := total - 1,
        steps_taken := 1, found_frame := none, is_finished := false,
        current_frame := Int.fdiv (0 + (total - 1)) 2 } := by
  unfold UserSession.init UserSession.calculate_next_frame
  rw [if_pos (by omega : (0:Int) ≤ total - 1)]
  rfl

/-- Convergence from a fresh session, for a threshold k that may also sit
one past the last frame (the all-no oracle). -/
theorem run_init_converges (uid total k : Int) (ans : Int → Bool) (fuel : Nat)
    (htot : 1 ≤ total) (hk0 : 0 ≤ k) (hk1 : k ≤ total)
    (hans : ∀ i : Int, 0 ≤ i → i ≤ total - 1 → ans i = decide (k ≤ i))
    (hfuel : pylog2 total.toNat + 1 ≤ fuel) :
    (runSession ans fuel (UserSession.init uid total)).is_finished = true ∧
    (runSession ans fuel (UserSession.init uid total)).found_frame =
      some (if k < total then k else total - 1) := by
  rw [init_eq uid total htot]
  exact runSession_converges ans k fuel _ rfl rfl le_rfl
    (show (0:Int) ≤ total - 1 by omega)
    (show total - 1 ≤ total - 1 from le_rfl)
    (show (0:Int) ≤ k from hk0)
    (show k ≤ (total - 1) + 1 by omega)
    hans
    (show pylog2 ((total - 1) - 0 + 1).toNat + 1 ≤ fuel by
      have he : (total - 1) - 0 + 1 = total := by ring
      rw [he]
      exact hfuel)

/-- C1: for every totalFrames >= 1 and every monotonic oracle with
threshold k in range (no below k, yes from k on), repeatedly submitting
the oracle answer for the current probe finishes the session with
found_frame = k, within ceil(log2 totalFrames) + 1 answer submissions
(runSession stops submitting at the first finished report, so reaching a
finished state with this much fuel is exactly the claimed bound). -/
theorem C1_oracle_convergence (uid total k : Int) (ans : Int → Bool) (fuel : Nat)
    (htot : 1 ≤ total) (hk0 : 0 ≤ k) (hk1 : k ≤ total - 1)
    (hans : ∀ i : Int, 0 ≤ i → i ≤ total - 1 → ans i = decide (k ≤ i))
    (hfuel : ceilLog2 total.toNat + 1 ≤ fuel) :
    (runSession ans fuel (UserSession.init uid total)).is_finished = true ∧
    (runSession ans fuel (UserSession.init uid total)).found_frame = some k := by
  have h := run_init_converges uid total k ans fuel htot hk0 (by omega) hans
    (by have := pylog2_le_ceilLog2 total.toNat; omega)
  rw [if_pos (show k < total by omega)] at h
  exact h

/-- C1 witness: the spec scenario totalFrames = 8, event at index 5; the
session finishes with found_frame = 5 within ceil(log2 8) + 1 = 4
answers. -/
theorem C1_oracle_convergence_witness :
    (1:Int) ≤ 8 ∧ (0:Int) ≤ 5 ∧ (5:Int) ≤ 8 - 1 ∧ ceilLog2 ((8:Int)).toNat + 1 ≤ 4 ∧
    ((runSession (fun i => decide ((5:Int) ≤ i)) 4 (UserSession.init 0 8)).is_finished = true ∧
     (runSession (fun i => decide ((5:Int) ≤ i)) 4 (UserSession.init 0 8)).found_frame = some 5) :=
  ⟨by norm_num, by norm_num, by norm_num, by decide,
   C1_oracle_convergence 0 8 5 (fun i => decide ((5:Int) ≤ i)) 4 (by norm_num) (by norm_num)
     (by norm_num) (fun _ _ _ => rfl) (by decide)⟩

/-- C7 counterexample: with totalFrames = 1, the claim predicts the
all-no session is finished within ceil(log2 1) = 0 submitAnswer steps,
but after 0 steps the freshly constructed session is not finished. -/
theorem C7_counterexample :
    ceilLog2 ((1:Int)).toNat = 0 ∧
    (runSession (fun _ => false) (ceilLog2 ((1:Int)).toNat)
      (UserSession.init 0 1)).is_finished = false := by
  decide

/-- C7 amended: for every totalFrames >= 1, if every in-range probe is
answered no, the session finishes with found_frame clamped to
totalFrames - 1 within floor(log2 totalFrames) + 1 submitAnswer steps
(instead of the claimed ceil(log2 totalFrames) steps). -/
theorem C7_all_no_clamps (uid total : Int) (ans : Int → Bool) (fuel : Nat)
    (htot : 1 ≤ total)
    (hans : ∀ i : Int, 0 ≤ i → i ≤ total - 1 → ans i = false)
    (hfuel : pylog2 total.toNat + 1 ≤ fuel) :
    (runSession ans fuel (UserSession.init uid total)).is_finished = true ∧
    (runSession ans fuel (UserSession.init uid total)).found_frame = some (total - 1) := by
  have h := run_init_converges uid total total ans fuel htot (by omega) le_rfl
    (fun i h0 h1 => by
      rw [hans i h0 h1]
      exact (decide_eq_false (by omega : ¬ total ≤ i)).symm)
    hfuel
  rw [if_neg (lt_irrefl total)] at h
  exact h

/-- C7 witness: totalFrames = 5 with the all-no answer function finishes
within floor(log2 5) + 1 = 3 steps with found_frame = 4. -/
theorem C7_all_no_clamps_witness :
    (1:Int) ≤ 5 ∧ pylog2 ((5:Int)).toNat + 1 ≤ 3 ∧
    ((runSession (fun _ => false) 3 (UserSession.init 0 5)).is_finished = true ∧
     (runSession (fun _ => false) 3 (UserSession.init 0 5)).found_frame = some (5 - 1)) :=
  ⟨by norm_num, by decide,
   C7_all_no_clamps 0 5 (fun _ => false) 3 (by norm_num) (fun _ _ _ => rfl) (by decide)⟩

/-- Submitting on a finished session that satisfies the invariant keeps
it finished: the narrowed bound stays crossed, so next_step takes the
termination branch again. -/
theorem finished_submit (s : UserSession) (b : Bool) (hInv : SessionInv s)
    (hf : s.is_finished = true) :
    (submitAnswer s b).1.is_finished = true ∧ (submitAnswer s b).2 = true ∧
    ((submitAnswer s b).1.found_frame).isSome = true := by
  obtain ⟨h1, h2, h3, h4, h5, hact, hfin⟩ := hInv
  obtain ⟨hrl, hrc, hcl, hc0, hfound⟩ := hfin hf
  rw [submitAnswer_char]
  cases b
  · simp only [Bool.false_eq_true, ite_false]
    rw [if_pos (show s.right_bound < s.current_frame + 1 by omega)]
    exact ⟨rfl, rfl, rfl⟩
  · simp only [ite_true]
    rw [if_pos (show s.current_frame - 1 < s.left_bound by omega)]
    exact ⟨rfl, rfl, rfl⟩

/-- C2 counterexample: submitting a further answer on a finished session
does not fail and does mutate the state. With totalFrames = 2, answering
yes finishes the session with found_frame = 0; a further no answer moves
the left bound and changes found_frame to 1, contradicting the claim
that the operation fails with InvalidState and leaves foundFrame,
lowerBound and upperBound unchanged. -/
theorem C2_counterexample :
    (submitAnswer (UserSession.init 0 2) true).1.is_finished = true ∧
    (submitAnswer (UserSession.init 0 2) true).1.found_frame = some 0 ∧
    (submitAnswer ((submitAnswer (UserSession.init 0 2) true).1) false).1.found_frame = some 1 ∧
    (submitAnswer ((submitAnswer (UserSession.init 0 2) true).1) false).1.left_bound ≠
      (submitAnswer (UserSession.init 0 2) true).1.left_bound := by
  decide

/-- C2 amended: the code performs no finished-state check, so submitting
a further answer on a finished reachable session does not fail with
InvalidState; it runs the normal bound update and termination check,
which reports finished = true and leaves the session finished with
found_frame set, though it may change the bounds and found_frame. -/
theorem C2_finished_submit (s : UserSession) (b : Bool) (h : Reachable s)
    (hf : s.is_finished = true) :
    (submitAnswer s b).1.is_finished = true ∧ (submitAnswer s b).2 = true ∧
    ((submitAnswer s b).1.found_frame).isSome = true :=
  finished_submit s b (reachable_inv s h) hf

/-- C2 witness: the finished totalFrames = 2 session accepts a further
answer and stays finished. -/
theorem C2_finished_submit_witness :
    ((submitAnswer (UserSession.init 0 2) true).1.is_finished = true) ∧
    ((submitAnswer ((submitAnswer (UserSession.init 0 2) true).1) false).1.is_finished = true ∧
     (submitAnswer ((submitAnswer (UserSession.init 0 2) true).1) false).2 = true ∧
     ((submitAnswer ((submitAnswer (UserSession.init 0 2) true).1) false).1.found_frame).isSome
       = true) :=
  ⟨by decide,
   C2_finished_submit _ false (Reachable.step _ true (Reachable.init 0 2 (by norm_num)))
     (by decide)⟩

/-- C3: after construction (with a positive frame count) and after each
submitAnswer, the bounds are never crossed while the session is
unfinished, and found_frame is set whenever the session is finished. -/
theorem C3_invariant (s : UserSession) (h : Reachable s) :
    (s.is_finished = false → s.left_bound ≤ s.right_bound) ∧
    (s.is_finished = true → s.found_frame ≠ none) := by
  obtain ⟨h1, h2, h3, h4, h5, hact, hfin⟩ := reachable_inv s h
  refine ⟨fun hb => (hact hb).2, fun hb => ?_⟩
  have hs := (hfin hb).2.2.2.2
  intro hnone
  rw [hnone] at hs
  exact Bool.noConfusion hs

/-- C3 witness: the invariant at a freshly constructed session and after
one answer. -/
theorem C3_invariant_witness :
    (((submitAnswer (UserSession.init 0 4) false).1.is_finished = false →
      (submitAnswer (UserSession.init 0 4) false).1.left_bound ≤
        (submitAnswer (UserSession.init 0 4) false).1.right_bound) ∧
     ((submitAnswer (UserSession.init 0 4) false).1.is_finished = true →
      (submitAnswer (UserSession.init 0 4) false).1.found_frame ≠ none)) :=
  C3_invariant _ (Reachable.step _ false (Reachable.init 0 4 (by norm_num)))

/-- C4 counterexample: on the freshly constructed totalFrames = 3 session
(bounds 0 and 2) the code reports floor(log2 3) = 1 remaining steps while
the claimed formula ceil(log2 3) gives 2. -/
theorem C4_counterexample :
    (UserSession.calculate_remaining_steps (UserSession.init 0 3)).1 = 1 ∧
    spec_remaining_steps (UserSession.init 0 3) = 2 ∧
    (UserSession.calculate_remaining_steps (UserSession.init 0 3)).1 ≠
      spec_remaining_steps (UserSession.init 0 3) := by
  decide

/-- C4 amended: remainingSteps equals floor(log2(upperBound - lowerBound
+ 1)) when upperBound > lowerBound (not the ceiling), and 0 otherwise. -/
theorem C4_remaining_steps (s : UserSession) :
    (UserSession.calculate_remaining_steps s).1 =
      if s.left_bound < s.right_bound then
        ((pylog2 (s.right_bound - s.left_bound + 1).toNat : Nat) : Int)
      else 0 := by
  simp only [UserSession.calculate_remaining_steps]
  split_ifs with h1 h2 h2
  · exact absurd h2 (by omega)
  · rfl
  · exact max_eq_right (Int.natCast_nonneg _)
  · exact absurd (show s.right_bound - s.left_bound ≤ 0 by omega) h1

/-- C6 counterexample: constructing with totalFrames = 0 does not fail;
it produces a session object with lowerBound 0, upperBound -1, no steps
taken and the finished flag unset. -/
theorem C6_counterexample :
    (UserSession.init 7 0).is_finished = false ∧
    (UserSession.init 7 0).left_bound = 0 ∧
    (UserSession.init 7 0).right_bound = -1 ∧
    (UserSession.init 7 0).steps_taken = 0 ∧
    (UserSession.init 7 0).current_frame = 0 ∧
    (UserSession.init 7 0).found_frame = none := by
  decide

/-- C6 amended: for totalFrames < 1 the constructor performs no
validation and produces a session with lowerBound 0, upperBound
totalFrames - 1, stepsTaken 0, currentProbe 0, found_frame unset and the
finished flag false (the midpoint computation is skipped because the
bounds start out crossed). -/
theorem C6_construct_no_validation (uid total : Int) (h : total < 1) :
    UserSession.init uid total =
      { user_id := uid, total_frames := total, left_bound := 0, right_bound := total - 1,
        steps_taken := 0, found_frame := none, is_finished := false, current_frame := 0 } := by
  unfold UserSession.init UserSession.calculate_next_frame
  rw [if_neg (by omega : ¬ (0:Int) ≤ total - 1)]

/-- C6 witness: the degenerate construction at totalFrames = 0. -/
theorem C6_construct_no_validation_witness :
    (0:Int) < 1 ∧
    UserSession.init 7 0 =
      { user_id := 7, total_frames := 0, left_bound := 0, right_bound := 0 - 1,
        steps_taken := 0, found_frame := none, is_finished := false, current_frame := 0 } :=
  ⟨by norm_num, C6_construct_no_validation 7 0 (by norm_num)⟩

/-- C8: the registry maps each user id to at most one session (its
backing map yields at most one optional session per key), and
create_session unconditionally overwrites, so a subsequent get_session
for that user returns exactly the newly created session. -/
theorem C8_create_replaces (m : SessionManager) (uid total : Int) :
    (m.create_session uid total).2.get_session uid = some ((m.create_session uid total).1) ∧
    (m.create_session uid total).1 = UserSession.init uid total := by
  constructor
  · show (if uid = uid then some (UserSession.init uid total) else m.sessions uid) =
      some (UserSession.init uid total)
    rw [if_pos rfl]
  · rfl

/-- C9: for a user id absent from the registry, get_session returns the
explicit absent value (none) rather than failing, and end_session leaves
the registry exactly as it was. -/
theorem C9_absent_get_end (m : SessionManager) (uid : Int) (h : m.sessions uid = none) :
    m.get_session uid = none ∧ m.end_session uid = m := by
  refine ⟨h, ?_⟩
  unfold SessionManager.end_session
  rw [h]
  rfl

/-- C9 witness: the empty registry at user id 0. -/
theorem C9_absent_get_end_witness :
    emptyManager.sessions 0 = none ∧
    (emptyManager.get_session 0 = none ∧ emptyManager.end_session 0 = emptyManager) :=
  ⟨rfl, C9_absent_get_end emptyManager 0 rfl⟩

/-- C10: the query operations is_complete, get_progress_info and
calculate_remaining_steps return the session state unchanged (every
field is the same before and after the call). -/
theorem C10_queries_pure (s : UserSession) :
    (UserSession.is_complete s).2 = s ∧
    (UserSession.get_progress_info s).2 = s ∧
    (UserSession.calculate_remaining_steps s).2 = s := by
  refine ⟨rfl, ?_, ?_⟩
  · simp only [UserSession.get_progress_info, UserSession.calculate_remaining_steps]
    split_ifs <;> rfl
  · simp only [UserSession.calculate_remaining_steps]
    split_ifs <;> rfl

/-- Closed form of the remaining-steps computation (shared helper). -/
theorem calc_remaining_eq (s : UserSession) :
    (UserSession.calculate_remaining_steps s).1 =
      if s.left_bound < s.right_bound then
        ((pylog2 (s.right_bound - s.left_bound + 1).toNat : Nat) : Int)
      else 0 := by
  simp only [UserSession.calculate_remaining_steps]
  split_ifs with h1 h2 h2
  · exact absurd h2 (by omega)
  · rfl
  · exact max_eq_right (Int.natCast_nonneg _)
  · exact absurd (show s.right_bound - s.left_bound ≤ 0 by omega) h1

theorem rem_nonneg (s : UserSession) : 0 ≤ (UserSession.calculate_remaining_steps s).1 := by
  rw [calc_remaining_eq]
  split_ifs
  · exact Int.natCast_nonneg _
  · exact le_rfl

theorem rem_mono {s t : UserSession}
    (h : t.right_bound - t.left_bound ≤ s.right_bound - s.left_bound) :
    (UserSession.calculate_remaining_steps t).1 ≤
      (UserSession.calculate_remaining_steps s).1 := by
  rw [calc_remaining_eq, calc_remaining_eq]
  split_ifs with h1 h2 h2
  · have hle : (t.right_bound - t.left_bound + 1).toNat ≤
        (s.right_bound - s.left_bound + 1).toNat := by omega
    exact_mod_cast pylog2_mono hle
  · exact absurd (show s.left_bound < s.right_bound by omega) h2
  · exact Int.natCast_nonneg _
  · exact le_rfl

/-- Closed form of the reported progress percentage. -/
theorem progressPercent_eq (s : UserSession) :
    progressPercent s =
      if 0 < s.steps_taken + (UserSession.calculate_remaining_steps s).1 then
        min 100 (Int.fdiv (s.steps_taken * 100)
          (s.steps_taken + (UserSession.calculate_remaining_steps s).1))
      else 100 := by
  simp only [progressPercent, UserSession.get_progress_info,
    UserSession.calculate_remaining_steps]
  split_ifs <;> rfl

theorem pct_le_100 (s : UserSession) : progressPercent s ≤ 100 := by
  rw [progressPercent_eq]
  split_ifs
  · exact min_le_left _ _
  · exact le_rfl

/-- With the bounds touching or crossed the estimate of remaining steps
is 0, so the percentage saturates at 100. -/
theorem pct_finished_eq_100 (s : UserSession) (hst : 1 ≤ s.steps_taken)
    (hrl : s.right_bound ≤ s.left_bound) : progressPercent s = 100 := by
  have hrem : (UserSession.calculate_remaining_steps s).1 = 0 := by
    rw [calc_remaining_eq, if_neg (by omega)]
  rw [progressPercent_eq, hrem]
  rw [if_pos (by omega : (0:Int) < s.steps_taken + 0)]
  have he : s.steps_taken + 0 = s.steps_taken := by ring
  rw [he, Int.fdiv_eq_ediv _ (by omega : (0:Int) ≤ s.steps_taken),
    Int.mul_ediv_cancel_left 100 (by omega : s.steps_taken ≠ 0)]
  exact min_self 100

/-- Floor division respects cross multiplication (positive divisors). -/
theorem fdiv_le_fdiv_cross {a b c d : Int} (hb : 0 < b) (hd : 0 < d)
    (h : a * d ≤ c * b) : Int.fdiv a b ≤ Int.fdiv c d := by
  rw [Int.fdiv_eq_ediv _ hb.le, Int.fdiv_eq_ediv _ hd.le]
  rw [Int.le_ediv_iff_mul_le hd]
  have h1 : a / b * b ≤ a := Int.ediv_mul_le a (by omega)
  have h2 : a / b * d * b = a / b * b * d := by ring
  have h3 : a / b * b * d ≤ a * d := mul_le_mul_of_nonneg_right h1 hd.le
  have h4 : a / b * d * b ≤ c * b := by
    rw [h2]
    exact le_trans h3 h
  exact le_of_mul_le_mul_right h4 hb

/-- One more step taken and no larger a remaining range can only raise
the reported percentage. -/
theorem pct_active_step (s t : UserSession) (hst : 1 ≤ s.steps_taken)
    (hts : t.steps_taken = s.steps_taken + 1)
    (hrange : t.right_bound - t.left_bound ≤ s.right_bound - s.left_bound) :
    progressPercent s ≤ progressPercent t := by
  have hr0 : 0 ≤ (UserSession.calculate_remaining_steps s).1 := rem_nonneg s
  have hr0' : 0 ≤ (UserSession.calculate_remaining_steps t).1 := rem_nonneg t
  have hmono : (UserSession.calculate_remaining_steps t).1 ≤
      (UserSession.calculate_remaining_steps s).1 := rem_mono hrange
  rw [progressPercent_eq, progressPercent_eq, hts]
  rw [if_pos (by omega), if_pos (by omega)]
  apply min_le_min le_rfl
  apply fdiv_le_fdiv_cross (by omega) (by omega)
  nlinarith [mul_le_mul_of_nonneg_left hmono (show (0:Int) ≤ s.steps_taken by omega)]

/-- Across one submitAnswer the percentage never decreases (for states
satisfying the invariant). -/
theorem pct_mono_submit (s : UserSession) (b : Bool) (hInv : SessionInv s) :
    progressPercent s ≤ progressPercent (submitAnswer s b).1 := by
  obtain ⟨h1, h2, h3, h4, h5, hact, hfin⟩ := hInv
  cases hb : s.is_finished with
  | true =>
    obtain ⟨hrl, hrc, hcl, hc0, hfound⟩ := hfin hb
    rw [pct_finished_eq_100 s h2 (by omega), submitAnswer_char]
    cases b
    · simp only [Bool.false_eq_true, ite_false]
      rw [if_pos (show s.right_bound < s.current_frame + 1 by omega)]
      refine (pct_finished_eq_100 _ ?_ ?_).ge
      · exact h2
      · show s.right_bound ≤ s.current_frame + 1
        omega
    · simp only [ite_true]
      rw [if_pos (show s.current_frame - 1 < s.left_bound by omega)]
      refine (pct_finished_eq_100 _ ?_ ?_).ge
      · exact h2
      · show s.current_frame - 1 ≤ s.left_bound
        omega
  | false =>
    obtain ⟨hcur, hlr⟩ := hact hb
    rw [Int.fdiv_eq_ediv _ (by norm_num : (0:Int) ≤ 2)] at hcur
    have hcl : s.left_bound ≤ s.current_frame := by omega
    have hcr : s.current_frame ≤ s.right_bound := by omega
    rw [submitAnswer_char]
    cases b
    · simp only [Bool.false_eq_true, ite_false]
      by_cases hcross : s.right_bound < s.current_frame + 1
      · rw [if_pos hcross]
        refine le_trans (pct_le_100 s) (pct_finished_eq_100 _ ?_ ?_).ge
        · exact h2
        · show s.right_bound ≤ s.current_frame + 1
          omega
      · rw [if_neg hcross]
        exact pct_active_step s _ h2 rfl
          (show s.right_bound - (s.current_frame + 1) ≤ s.right_bound - s.left_bound by omega)
    · simp only [ite_true]
      by_cases hcross : s.current_frame - 1 < s.left_bound
      · rw [if_pos hcross]
        refine le_trans (pct_le_100 s) (pct_finished_eq_100 _ ?_ ?_).ge
        · exact h2
        · show s.current_frame - 1 ≤ s.left_bound
          omega
      · rw [if_neg hcross]
        exact pct_active_step s _ h2 rfl
          (show (s.current_frame - 1) - s.left_bound ≤ s.right_bound - s.left_bound by omega)

/-- C5 counterexample: a freshly constructed totalFrames = 1 session
already reports progressPercent = 100 while is_finished is still false,
so progressPercent = 100 does not imply the session is finished. -/
theorem C5_counterexample :
    progressPercent (UserSession.init 0 1) = 100 ∧
    (UserSession.init 0 1).is_finished = false := by
  decide

/-- C5 amended: across each submitAnswer on a reachable session the
reported progressPercent is monotonically non-decreasing, and a finished
session always reports 100; however 100 is already reported whenever the
bounds touch or cross, which can happen before is_finished is true. -/
theorem C5_progress_monotone (s : UserSession) (b : Bool) (h : Reachable s) :
    progressPercent s ≤ progressPercent (submitAnswer s b).1 ∧
    (s.is_finished = true → progressPercent s = 100) := by
  have hInv := reachable_inv s h
  refine ⟨pct_mono_submit s b hInv, fun hb => ?_⟩
  obtain ⟨h1, h2, h3, h4, h5, hact, hfin⟩ := hInv
  obtain ⟨hrl, _, _, _, _⟩ := hfin hb
  exact pct_finished_eq_100 s h2 (by omega)

/-- C5 witness: monotonicity across the first answer of a totalFrames = 4
session. -/
theorem C5_progress_monotone_witness :
    (progressPercent (UserSession.init 0 4) ≤
      progressPercent (submitAnswer (UserSession.init 0 4) false).1 ∧
     ((UserSession.init 0 4).is_finished = true →
      progressPercent (UserSession.init 0 4) = 100)) :=
  C5_progress_monotone _ false (Reachable.init 0 4 (by norm_num))
